import Mathlib

/-!
Shallow embedding of the contact-form backend: the mongoose Contact model
(src/models/contactModel.js), the POST /contact and GET /contact routes with
their express-validator chain, express-rate-limit middleware and nodemailer
confirmation send, and the configuration record the routes read. Stateful
behaviour (the contacts collection, rate-limit counters, attempted and sent
mails, the console log) is modelled as explicit state passing; the outcomes
of the two external effects (the store write and the mail send) are supplied
as oracle arguments, since the database and the transport are external
collaborators.
-/

namespace ContactUs

set_option maxRecDepth 400000

/-- One entry of the structured validation-error list returned with a 400
response, mirroring an express-validator error object with its msg, param
and location fields. -/
structure FieldError where
  msg : String
  param : String
  location : String := "body"
  deriving Repr, DecidableEq

/-- Escaping of a single character, modelling the validator.js escape
sanitizer invoked by the escape() calls of the validation chain: the eight
markup-significant characters become HTML entities, all other characters
are kept. The apostrophe (code 39) and the backtick (code 96) are matched
by code point. -/
def escapeChar (c : Char) : String :=
  if c = '&' then "&amp;"
  else if c = '\"' then "&quot;"
  else if c.toNat = 39 then "&#x27;"
  else if c = '<' then "&lt;"
  else if c = '>' then "&gt;"
  else if c = '/' then "&#x2F;"
  else if c = '\\' then "&#x5C;"
  else if c.toNat = 96 then "&#96;"
  else String.singleton c

/-- validator.js escape over a list of characters. -/
def escapeList : List Char → String
  | [] => ""
  | c :: cs => escapeChar c ++ escapeList cs

/-- validator.js escape over a whole string. -/
def escape (s : String) : String := escapeList s.data

/-- Whitespace for the trim sanitizer, modelling the character class the
validator.js trim default uses, restricted to the characters this
repository can meet: blank, tab, line feed, carriage return, vertical tab,
form feed, no-break space and the byte order mark. -/
def isJsSpace (c : Char) : Bool :=
  c = ' ' || c = '\t' || c = '\n' || c = '\r' ||
    c.toNat = 11 || c.toNat = 12 || c.toNat = 160 || c.toNat = 65279

/-- The trim sanitizer of the validation chain: whitespace is removed from
both ends. -/
def jsTrim (s : String) : String :=
  String.mk (((s.data.dropWhile isJsSpace).reverse.dropWhile isJsSpace).reverse)

/-- Splitting a character list at every occurrence of a separator, with the
semantics of the JavaScript String split on a one-character separator: the
empty list yields one empty group, and separators at the ends produce empty
groups. -/
def splitChar (sep : Char) : List Char → List (List Char)
  | [] => [[]]
  | c :: cs =>
    if c = sep then [] :: splitChar sep cs
    else
      match splitChar sep cs with
      | [] => [[c]]
      | g :: gs => (c :: g) :: gs

/-- Joining groups with a separator, the inverse of splitChar, with the
semantics of the JavaScript Array join on a one-character separator. -/
def joinChar (sep : Char) : List (List Char) → List Char
  | [] => []
  | [g] => g
  | g :: gs => g ++ sep :: joinChar sep gs

/-- UTF-8 byte count of a character list, for the byte-length bounds of the
validator.js isEmail check. -/
def utf8Len (l : List Char) : Nat := (l.map Char.utf8Size).sum

/-- Characters the validator.js email local-part regular expression accepts,
restricted to ASCII: letters, digits and the listed specials (apostrophe 39
and backtick 96 are matched by code point). -/
def isEmailUserChar (c : Char) : Bool :=
  c.isAlpha || c.isDigit ||
    [33, 35, 36, 37, 38, 39, 42, 43, 45, 47, 61, 63,
      94, 95, 96, 123, 124, 125, 126].contains c.toNat

/-- One label of a fully qualified domain name under the validator.js isFQDN
default options, restricted to ASCII: nonempty, at most 63 characters,
alphanumeric or hyphen, with no hyphen at either end (underscores are
rejected by the default options). -/
def isFQDNPart (p : List Char) : Bool :=
  decide (p.length ≤ 63) && !p.isEmpty &&
    p.all (fun c => c.isAlphanum || c = '-') &&
    !(p.headD 'a' = '-') && !(p.getLastD 'a' = '-')

/-- A top-level domain label under the validator.js isFQDN default options,
restricted to ASCII: at least two characters, all alphabetic (the
internationalized and punycode branches are not exercised by this
repository and are omitted). -/
def isTld (t : List Char) : Bool :=
  decide (2 ≤ t.length) && t.all Char.isAlpha

/-- Models validator.js isFQDN with default options (require_tld set), for
ASCII domains: at least two dot-separated labels, a valid top-level label,
every label valid. -/
def isFQDN (d : List Char) : Bool :=
  let parts := splitChar '.' d
  decide (2 ≤ parts.length) && isTld (parts.getLastD []) && parts.all isFQDNPart

/-- Models validator.js isEmail with default options, as invoked by the
email chain, restricted to ASCII addresses with an unquoted local part
(quoted locals, display names and IP domains are not exercised by this
repository and are omitted): the part after the last at sign must be a
valid FQDN of at most 254 UTF-8 bytes, the local part must be at most 64
UTF-8 bytes and consist of nonempty dot-separated runs of permitted
characters. -/
def isEmail (s : String) : Bool :=
  let parts := splitChar '@' s.data
  let domain := parts.getLastD []
  let user := joinChar '@' parts.dropLast
  decide (utf8Len user ≤ 64) && decide (utf8Len domain ≤ 254) &&
    isFQDN domain &&
    (splitChar '.' user).all (fun p => !p.isEmpty && p.all isEmailUserChar)

/-- Models validator.js normalizeEmail with default options on domains
without provider-specific rules: the all_lowercase default lowercases the
local part and the domain (the provider-specific rewriting for a handful of
webmail domains, such as gmail dot and subaddress removal, is not exercised
by this repository and is omitted). -/
def normalizeEmail (s : String) : String :=
  let parts := splitChar '@' s.data
  let domain := parts.getLastD []
  let user := joinChar '@' parts.dropLast
  String.mk (user.map Char.toLower) ++ "@" ++ String.mk (domain.map Char.toLower)

/-- An incoming POST /contact request: the client network address that
express-rate-limit keys on, and the JSON body fields, with absent fields
represented as none. -/
structure Request where
  ip : String
  name : Option String := none
  email : Option String := none
  phone : Option String := none
  topic : Option String := none
  message : Option String := none
  deriving Repr, DecidableEq

def nameRequiredError : FieldError := { msg := "Name is required", param := "name" }

def emailInvalidError : FieldError := { msg := "Valid email is required", param := "email" }

def messageRequiredError : FieldError := { msg := "Message is required", param := "message" }

def messageTooLongError : FieldError :=
  { msg := "Message can be at most 1000 characters long", param := "message" }

/-- The outcome of the validation chain: the collected errors and the
sanitized field values written back to the request body. -/
structure Validated where
  errors : List FieldError
  name : String
  email : String
  phone : Option String
  topic : Option String
  message : String
  deriving Repr, DecidableEq

/-- The validation and sanitization middleware of router.post, in source
order, with all failures collected rather than short-circuited: name is
trimmed, required nonempty, escaped; email is trimmed, required to satisfy
isEmail, normalized; phone and topic are trimmed and escaped only when
present; message is trimmed, required nonempty, required to have length at
most 1000 before escaping, escaped. A missing required field behaves as the
empty string. -/
def validate (req : Request) : Validated :=
  let nameV := jsTrim (req.name.getD "")
  let emailV := jsTrim (req.email.getD "")
  let msgV := jsTrim (req.message.getD "")
  { errors :=
      (if nameV = "" then [nameRequiredError] else []) ++
      (if isEmail emailV then [] else [emailInvalidError]) ++
      ((if msgV = "" then [messageRequiredError] else []) ++
        (if 1000 < msgV.length then [messageTooLongError] else [])),
    name := escape nameV,
    email := normalizeEmail emailV,
    phone := req.phone.map (fun p => escape (jsTrim p)),
    topic := req.topic.map (fun t => escape (jsTrim t)),
    message := escape msgV }

/-- A stored contact document: the fields of contactSchema together with
the identifier the store assigns on save. The date field is the submission
timestamp, defaulted at save time. -/
structure Contact where
  id : Nat
  name : String
  email : String
  phone : Option String
  topic : Option String
  message : String
  date : Nat
  deriving Repr, DecidableEq

/-- The document built by new Contact from the sanitized body fields, as
saved at time now with the next free identifier. -/
def contactOf (nextId : Nat) (now : Nat) (v : Validated) : Contact :=
  { id := nextId, name := v.name, email := v.email, phone := v.phone,
    topic := v.topic, message := v.message, date := now }

/-- A mail handed to the transport: the mailOptions object of the route. -/
structure Mail where
  fromAddr : String
  toAddr : String
  subject : String
  text : String
  deriving Repr, DecidableEq

/-- The runtime configuration the routes read; only the sending account
identity is observable in this model. -/
structure Config where
  emailUser : String
  deriving Repr, DecidableEq

/-- The topic interpolation of the mail body: the JavaScript expression
topic or-else the placeholder, which substitutes the placeholder both for
an absent and for an empty (falsy) topic. -/
def topicOr (topic : Option String) : String :=
  match topic with
  | none => "N/A"
  | some t => if t = "" then "N/A" else t

def mailGreeting : String := "Thank you for contacting us, "

def mailAfterName : String :=
  "!\n\nWe have received your message and will get back to you shortly.\n\nYour message details:\nTopic: "

def mailAfterTopic : String := "\nMessage: "

def mailClosing : String := "\n\nBest regards,\nThe Contact Us Team"

/-- The plain-text body of the confirmation email composed in mailOptions. -/
def mailText (nm : String) (topic : Option String) (msg : String) : String :=
  mailGreeting ++ nm ++ mailAfterName ++ topicOr topic ++ mailAfterTopic ++ msg ++ mailClosing

/-- The mailOptions object: sent from the configured account to the
submitter, with the fixed subject and the composed body. -/
def mkMail (cfg : Config) (v : Validated) : Mail :=
  { fromAddr := cfg.emailUser, toAddr := v.email,
    subject := "Contact Form Submission Confirmation",
    text := mailText v.name v.topic v.message }

/-- The windowMs option of contactLimiter: fifteen minutes in milliseconds. -/
def windowMs : Nat := 15 * 60 * 1000

/-- The max option of contactLimiter. -/
def rateLimitMax : Nat := 10

/-- The message option of contactLimiter, sent as the plain-text body of a
429 response. -/
def limiterMessage : String :=
  "Too many contact form submissions from this IP, please try again after 15 minutes"

/-- Rate-limit counters: for each client address, the start time of its
current window and the number of hits counted in it. -/
abbrev LimiterState := String → Option (Nat × Nat)

/-- One hit of the contactLimiter middleware for a client address at time
now: within a live window the count is incremented; otherwise a fresh
window starts at now with count one. Returns the updated counters and the
count charged to this request. -/
def limiterHit (lim : LimiterState) (ip : String) (now : Nat) : LimiterState × Nat :=
  match lim ip with
  | some (start, hits) =>
    if now < start + windowMs then
      (fun k => if k = ip then some (start, hits + 1) else lim k, hits + 1)
    else
      (fun k => if k = ip then some (now, 1) else lim k, 1)
  | none => (fun k => if k = ip then some (now, 1) else lim k, 1)

/-- The observable state of the system: the contacts collection with the
next identifier the store will assign, the rate-limit counters, the mails
the transport was asked to send and the subset that succeeded, and the
console log. -/
structure SysState where
  store : List Contact
  nextId : Nat
  limiter : LimiterState
  mailAttempts : List Mail
  sentMail : List Mail
  log : List String

/-- The state at process start: empty collection, no counters, no mail, no
log. -/
def initState : SysState :=
  { store := [], nextId := 0, limiter := fun _ => none,
    mailAttempts := [], sentMail := [], log := [] }

/-- An HTTP response of the two routes, one constructor per shape the code
can produce: 201 with message and contact, 400 with the error list, 429
with a plain-text body, 500 with generic message and error detail, 200 with
the listed contacts. -/
inductive Response where
  | created (message : String) (contact : Contact)
  | validationFailed (errors : List FieldError)
  | rateLimited (body : String)
  | serverError (message : String) (error : String)
  | okList (contacts : List Contact)
  deriving Repr, DecidableEq

/-- The HTTP status code of each response shape. -/
def Response.status : Response → Nat
  | .created _ _ => 201
  | .validationFailed _ => 400
  | .rateLimited _ => 429
  | .serverError _ _ => 500
  | .okList _ => 200

def Response.isCreated : Response → Bool
  | .created _ _ => true
  | _ => false

def Response.isRateLimited : Response → Bool
  | .rateLimited _ => true
  | _ => false

def Response.isValidationFailed : Response → Bool
  | .validationFailed _ => true
  | _ => false

/-- The default used when indexing response lists. -/
def noResp : Response := Response.okList []

def successMessage : String := "Contact form submitted successfully!"

def saveFailMessage : String := "Failed to submit contact form."

def listFailMessage : String := "Failed to retrieve contact messages."

/-- One POST /contact request processed end to end by router.post: the
contactLimiter middleware first, then the validation chain, then the
Contact save whose failure is supplied through saveErr, then the
fire-and-forget sendMail whose outcome mailErr is only logged, then the
response. -/
def submit (cfg : Config) (st : SysState) (now : Nat) (req : Request)
    (saveErr : Option String) (mailErr : Option String) : SysState × Response :=
  let hit := limiterHit st.limiter req.ip now
  let st1 : SysState := { st with limiter := hit.1 }
  if rateLimitMax < hit.2 then
    (st1, Response.rateLimited limiterMessage)
  else
    let v := validate req
    if v.errors = [] then
      match saveErr with
      | some e => (st1, Response.serverError saveFailMessage e)
      | none =>
        let c := contactOf st1.nextId now v
        let m := mkMail cfg v
        ({ st1 with
            store := st1.store ++ [c],
            nextId := st1.nextId + 1,
            mailAttempts := st1.mailAttempts ++ [m],
            sentMail :=
              match mailErr with
              | none => st1.sentMail ++ [m]
              | some _ => st1.sentMail,
            log :=
              match mailErr with
              | none => st1.log ++ ["Confirmation email sent"]
              | some e => st1.log ++ ["Error sending confirmation email: " ++ e] },
          Response.created successMessage c)
    else
      (st1, Response.validationFailed v.errors)

/-- GET /contact handled by router.get: a find of everything in the
collection, or a 500 carrying the storage error. Reads do not change the
state. -/
def listContacts (st : SysState) (findErr : Option String) : Response :=
  match findErr with
  | some e => Response.serverError listFailMessage e
  | none => Response.okList st.store

/-- One submission of a trace: its arrival time, its request, and the
oracle outcomes of its store write and mail send. -/
structure SubmitCall where
  now : Nat
  req : Request
  saveErr : Option String
  mailErr : Option String

/-- A sequence of POST /contact requests processed in order, returning the
final state and the list of responses. -/
def runSubmits (cfg : Config) : SysState → List SubmitCall → SysState × List Response
  | st, [] => (st, [])
  | st, c :: cs =>
    let step := submit cfg st c.now c.req c.saveErr c.mailErr
    let rest := runSubmits cfg step.1 cs
    (rest.1, step.2 :: rest.2)

/-- The contacts carried by the 201 responses of a trace, in order. -/
def createdOf (rs : List Response) : List Contact :=
  rs.filterMap (fun r =>
    match r with
    | Response.created _ c => some c
    | _ => none)

/-- A stored contact agrees field by field with the sanitized form of a
request body. -/
def matchesValidated (c : Contact) (req : Request) : Bool :=
  c.name == (validate req).name && c.email == (validate req).email &&
    c.phone == (validate req).phone && c.topic == (validate req).topic &&
    c.message == (validate req).message

/-- The configuration used by concrete instances. -/
def cfg0 : Config := { emailUser := "team@example.com" }

/-- The running example of the specification: Ann submits with an
upper-cased email and no topic. -/
def annReq : Request :=
  { ip := "9.9.9.9", name := some "Ann", email := some "ANN@Example.com",
    message := some "Hello" }

/-- The amended invariant of a stored record: name, email and message are
present and nonempty, and the escaped message is at most 6000 characters
long (six times the pre-escape bound of 1000, six being the longest HTML
entity the escape sanitizer produces). Identifier and timestamp are carried
by every Contact by construction. -/
def ContactOK (c : Contact) : Prop :=
  c.name ≠ "" ∧ c.email ≠ "" ∧ c.message ≠ "" ∧ c.message.length ≤ 6000

instance contactOKDecidable (c : Contact) : Decidable (ContactOK c) :=
  inferInstanceAs (Decidable (_ ∧ _ ∧ _ ∧ _))

/-- A message of 168 slashes: 168 characters before escaping, so accepted
by the validation chain, but escaped to 1008 characters because each slash
becomes a six-character entity. -/
def slashMsg : String := String.mk (List.replicate 168 '/')

/-- A valid submission whose message escapes to more than 1000 characters. -/
def slashReq : Request :=
  { ip := "2.2.2.2", name := some "Bob", email := some "bob@example.com",
    message := some slashMsg }

/-- A request failing all three required-field checks at once. -/
def badReq : Request :=
  { ip := "8.8.8.8", name := some "  ", email := some "nope", message := some "" }

/-- A submission carrying markup-significant characters in name, topic and
message. -/
def markupReq : Request :=
  { ip := "7.7.7.7", name := some "A&B", email := some "a@b.co",
    topic := some "<T>", message := some "x\"y" }

/-- A second valid submission, from another client, with a topic. -/
def boReq : Request :=
  { ip := "5.5.5.5", name := some "Bo", email := some "bo@ex.org",
    topic := some "Q", message := some "Yo" }

def annCall : SubmitCall := { now := 1, req := annReq, saveErr := none, mailErr := none }

def boCall : SubmitCall := { now := 2, req := boReq, saveErr := none, mailErr := none }

/-- A valid submission from the rate-limited client of the C4 witness. -/
def vreq : Request :=
  { ip := "1.1.1.1", name := some "Al", email := some "al@ex.org",
    message := some "Yo" }

def vcall : SubmitCall := { now := 0, req := vreq, saveErr := none, mailErr := none }

/-- A submission with a missing name, rejected by validation. -/
def ireq : Request :=
  { ip := "3.3.3.3", email := some "al@ex.org", message := some "Yo" }

def icall : SubmitCall := { now := 0, req := ireq, saveErr := none, mailErr := none }

/-- A fully valid submission from the same client as the invalid ones. -/
def vreq3 : Request :=
  { ip := "3.3.3.3", name := some "Al", email := some "al@ex.org",
    message := some "Yo" }

example : isEmail "ANN@Example.com" = true := by decide

example : normalizeEmail "ANN@Example.com" = "ann@example.com" := by decide

example : jsTrim "  hi  " = "hi" := by decide

example : escape "a<b&c" = "a&lt;b&amp;c" := by decide

example : (validate annReq).errors = [] := by decide

/-- A string whose character list is empty is the empty string. -/
theorem str_eq_empty {s : String} (h : s.data = []) : s = "" := by
  cases s with
  | mk d => cases h; rfl

/-- A string of positive length is not the empty string. -/
theorem str_ne_empty_of_length_pos {s : String} (h : 0 < s.length) : s ≠ "" := by
  intro he
  rw [he] at h
  exact absurd h (by decide)

theorem escapeChar_length_pos (c : Char) : 0 < (escapeChar c).length := by
  unfold escapeChar
  split_ifs <;> first
    | decide
    | exact Nat.zero_lt_one

theorem escapeChar_length_le (c : Char) : (escapeChar c).length ≤ 6 := by
  unfold escapeChar
  split_ifs <;> first
    | decide
    | exact show (1 : Nat) ≤ 6 by decide

theorem escapeList_length_le (l : List Char) : (escapeList l).length ≤ 6 * l.length := by
  induction l with
  | nil => decide
  | cons c cs ih =>
    rw [escapeList, String.length_append]
    have hc := escapeChar_length_le c
    simp only [List.length_cons]
    omega

theorem escape_length_le (s : String) : (escape s).length ≤ 6 * s.length :=
  escapeList_length_le s.data

theorem escape_ne_empty {s : String} (h : s ≠ "") : escape s ≠ "" := by
  have hd : s.data ≠ [] := fun hnil => h (str_eq_empty hnil)
  apply str_ne_empty_of_length_pos
  unfold escape
  cases hdata : s.data with
  | nil => exact absurd hdata hd
  | cons c cs =>
    rw [escapeList, String.length_append]
    have := escapeChar_length_pos c
    omega

theorem normalizeEmail_ne_empty (s : String) : normalizeEmail s ≠ "" := by
  apply str_ne_empty_of_length_pos
  unfold normalizeEmail
  rw [String.length_append, String.length_append]
  have hat : ("@" : String).length = 1 := by decide
  omega

/-- The counters after a hit keep the entry of the client that was hit. -/
theorem limiterHit_fresh {lim : LimiterState} {ip : String} (now : Nat)
    (h : lim ip = none) :
    limiterHit lim ip now =
      (fun k => if k = ip then some (now, 1) else lim k, 1) := by
  simp [limiterHit, h]

theorem limiterHit_live {lim : LimiterState} {ip : String} {start hits : Nat} (now : Nat)
    (h : lim ip = some (start, hits)) (hw : now < start + windowMs) :
    limiterHit lim ip now =
      (fun k => if k = ip then some (start, hits + 1) else lim k, hits + 1) := by
  simp [limiterHit, h, hw]

theorem limiterHit_expired {lim : LimiterState} {ip : String} {start hits : Nat} (now : Nat)
    (h : lim ip = some (start, hits)) (hw : ¬ now < start + windowMs) :
    limiterHit lim ip now =
      (fun k => if k = ip then some (now, 1) else lim k, 1) := by
  simp [limiterHit, h, hw]

/-- Shape of submit when the limiter rejects: only the counters change and
the response is the 429 with the plain-text limiter message. -/
theorem submit_rateLimited_eq (cfg : Config) (st : SysState) (now : Nat) (req : Request)
    (saveErr mailErr : Option String)
    (h : rateLimitMax < (limiterHit st.limiter req.ip now).2) :
    submit cfg st now req saveErr mailErr =
      ({ st with limiter := (limiterHit st.limiter req.ip now).1 },
        Response.rateLimited limiterMessage) := by
  simp [submit, h]

/-- Shape of submit when the limiter admits but validation fails: only the
counters change and the response is the 400 carrying the collected errors. -/
theorem submit_invalid_eq (cfg : Config) (st : SysState) (now : Nat) (req : Request)
    (saveErr mailErr : Option String)
    (hle : (limiterHit st.limiter req.ip now).2 ≤ rateLimitMax)
    (hv : (validate req).errors ≠ []) :
    submit cfg st now req saveErr mailErr =
      ({ st with limiter := (limiterHit st.limiter req.ip now).1 },
        Response.validationFailed (validate req).errors) := by
  have h1 : ¬ rateLimitMax < (limiterHit st.limiter req.ip now).2 := Nat.not_lt.mpr hle
  simp [submit, h1, hv]

/-- Shape of submit when the limiter admits, validation passes and the
store write fails: only the counters change and the response is the generic
500 with the error detail. -/
theorem submit_saveErr_eq (cfg : Config) (st : SysState) (now : Nat) (req : Request)
    (e : String) (mailErr : Option String)
    (hle : (limiterHit st.limiter req.ip now).2 ≤ rateLimitMax)
    (hv : (validate req).errors = []) :
    submit cfg st now req (some e) mailErr =
      ({ st with limiter := (limiterHit st.limiter req.ip now).1 },
        Response.serverError saveFailMessage e) := by
  have h1 : ¬ rateLimitMax < (limiterHit st.limiter req.ip now).2 := Nat.not_lt.mpr hle
  simp [submit, h1, hv]

/-- Shape of submit when the limiter admits, validation passes and the
store write succeeds: the sanitized contact is appended to the store, the
confirmation mail is attempted, the mail outcome only changes the sent list
and the log, and the response is the 201 with the stored contact. -/
theorem submit_success_eq (cfg : Config) (st : SysState) (now : Nat) (req : Request)
    (mailErr : Option String)
    (hle : (limiterHit st.limiter req.ip now).2 ≤ rateLimitMax)
    (hv : (validate req).errors = []) :
    submit cfg st now req none mailErr =
      ({ st with
          limiter := (limiterHit st.limiter req.ip now).1,
          store := st.store ++ [contactOf st.nextId now (validate req)],
          nextId := st.nextId + 1,
          mailAttempts := st.mailAttempts ++ [mkMail cfg (validate req)],
          sentMail :=
            match mailErr with
            | none => st.sentMail ++ [mkMail cfg (validate req)]
            | some _ => st.sentMail,
          log :=
            match mailErr with
            | none => st.log ++ ["Confirmation email sent"]
            | some e => st.log ++ ["Error sending confirmation email: " ++ e] },
        Response.created successMessage (contactOf st.nextId now (validate req))) := by
  have h1 : ¬ rateLimitMax < (limiterHit st.limiter req.ip now).2 := Nat.not_lt.mpr hle
  simp [submit, h1, hv]

theorem runSubmits_nil (cfg : Config) (st : SysState) : runSubmits cfg st [] = (st, []) := rfl

theorem runSubmits_cons (cfg : Config) (st : SysState) (c : SubmitCall) (cs : List SubmitCall) :
    runSubmits cfg st (c :: cs) =
      ((runSubmits cfg (submit cfg st c.now c.req c.saveErr c.mailErr).1 cs).1,
        (submit cfg st c.now c.req c.saveErr c.mailErr).2 ::
          (runSubmits cfg (submit cfg st c.now c.req c.saveErr c.mailErr).1 cs).2) := rfl

theorem createdOf_nil : createdOf [] = [] := rfl

theorem createdOf_cons (r : Response) (rs : List Response) :
    createdOf (r :: rs) = createdOf [r] ++ createdOf rs := by
  cases r <;> simp [createdOf]

/-- The limiter after a submit is exactly the limiter after the hit,
whatever branch the handler took. -/
theorem submit_limiter (cfg : Config) (st : SysState) (now : Nat) (req : Request)
    (saveErr mailErr : Option String) :
    (submit cfg st now req saveErr mailErr).1.limiter =
      (limiterHit st.limiter req.ip now).1 := by
  by_cases h : rateLimitMax < (limiterHit st.limiter req.ip now).2
  · rw [submit_rateLimited_eq cfg st now req saveErr mailErr h]
  · have hle := Nat.le_of_not_lt h
    by_cases hv : (validate req).errors = []
    · cases saveErr with
      | some e => rw [submit_saveErr_eq cfg st now req e mailErr hle hv]
      | none => rw [submit_success_eq cfg st now req mailErr hle hv]
    · rw [submit_invalid_eq cfg st now req saveErr mailErr hle hv]

/-- A submit is answered with the 429 limiter message exactly when its hit
count exceeds the limit. -/
theorem submit_isRateLimited (cfg : Config) (st : SysState) (now : Nat) (req : Request)
    (saveErr mailErr : Option String) :
    ((submit cfg st now req saveErr mailErr).2).isRateLimited =
      decide (rateLimitMax < (limiterHit st.limiter req.ip now).2) := by
  by_cases h : rateLimitMax < (limiterHit st.limiter req.ip now).2
  · rw [submit_rateLimited_eq cfg st now req saveErr mailErr h]
    simp [Response.isRateLimited, h]
  · have hle := Nat.le_of_not_lt h
    by_cases hv : (validate req).errors = []
    · cases saveErr with
      | some e =>
        rw [submit_saveErr_eq cfg st now req e mailErr hle hv]
        simp [Response.isRateLimited, h]
      | none =>
        rw [submit_success_eq cfg st now req mailErr hle hv]
        simp [Response.isRateLimited, h]
    · rw [submit_invalid_eq cfg st now req saveErr mailErr hle hv]
      simp [Response.isRateLimited, h]

/-- The store after a submit is the store before, extended by exactly the
contacts its response reports created. -/
theorem submit_store_eq (cfg : Config) (st : SysState) (now : Nat) (req : Request)
    (saveErr mailErr : Option String) :
    (submit cfg st now req saveErr mailErr).1.store =
      st.store ++ createdOf [(submit cfg st now req saveErr mailErr).2] := by
  by_cases h : rateLimitMax < (limiterHit st.limiter req.ip now).2
  · rw [submit_rateLimited_eq cfg st now req saveErr mailErr h]
    simp [createdOf]
  · have hle := Nat.le_of_not_lt h
    by_cases hv : (validate req).errors = []
    · cases saveErr with
      | some e =>
        rw [submit_saveErr_eq cfg st now req e mailErr hle hv]
        simp [createdOf]
      | none =>
        rw [submit_success_eq cfg st now req mailErr hle hv]
        simp [createdOf]
    · rw [submit_invalid_eq cfg st now req saveErr mailErr hle hv]
      simp [createdOf]

/-- A contact reported created by a submit agrees field by field with the
sanitized form of the request it came from. -/
theorem submit_created_matches (cfg : Config) (st : SysState) (now : Nat) (req : Request)
    (saveErr mailErr : Option String) (m : String) (c : Contact)
    (h : (submit cfg st now req saveErr mailErr).2 = Response.created m c) :
    matchesValidated c req = true := by
  by_cases hl : rateLimitMax < (limiterHit st.limiter req.ip now).2
  · rw [submit_rateLimited_eq cfg st now req saveErr mailErr hl] at h
    exact absurd h (by simp)
  · have hle := Nat.le_of_not_lt hl
    by_cases hv : (validate req).errors = []
    · cases saveErr with
      | some e =>
        rw [submit_saveErr_eq cfg st now req e mailErr hle hv] at h
        exact absurd h (by simp)
      | none =>
        rw [submit_success_eq cfg st now req mailErr hle hv] at h
        have hc : c = contactOf st.nextId now (validate req) := by
          cases h
          rfl
        subst hc
        simp [matchesValidated, contactOf]
    · rw [submit_invalid_eq cfg st now req saveErr mailErr hle hv] at h
      exact absurd h (by simp)

theorem runSubmits_store (cfg : Config) :
    ∀ (calls : List SubmitCall) (st : SysState),
      (runSubmits cfg st calls).1.store =
        st.store ++ createdOf (runSubmits cfg st calls).2 := by
  intro calls
  induction calls with
  | nil => intro st; simp [runSubmits_nil, createdOf]
  | cons c cs ih =>
    intro st
    rw [runSubmits_cons]
    rw [createdOf_cons ((submit cfg st c.now c.req c.saveErr c.mailErr).2)
      ((runSubmits cfg (submit cfg st c.now c.req c.saveErr c.mailErr).1 cs).2)]
    rw [ih (submit cfg st c.now c.req c.saveErr c.mailErr).1]
    rw [submit_store_eq cfg st c.now c.req c.saveErr c.mailErr]
    rw [List.append_assoc]

theorem runSubmits_length (cfg : Config) :
    ∀ (calls : List SubmitCall) (st : SysState),
      (runSubmits cfg st calls).2.length = calls.length := by
  intro calls
  induction calls with
  | nil => intro st; rfl
  | cons c cs ih =>
    intro st
    rw [runSubmits_cons]
    simp [ih]

/-- Every contact a trace creates agrees with the sanitized form of one of
the trace's requests. -/
theorem runSubmits_matches (cfg : Config) :
    ∀ (calls : List SubmitCall) (st : SysState) (c : Contact),
      c ∈ createdOf (runSubmits cfg st calls).2 →
        ∃ sc, sc ∈ calls ∧ matchesValidated c sc.req = true := by
  intro calls
  induction calls with
  | nil =>
    intro st c h
    simp [runSubmits_nil, createdOf] at h
  | cons x cs ih =>
    intro st c h
    rw [runSubmits_cons, createdOf_cons] at h
    rcases List.mem_append.mp h with h1 | h2
    · cases hstep : (submit cfg st x.now x.req x.saveErr x.mailErr).2 with
      | created m c0 =>
        rw [hstep] at h1
        simp [createdOf] at h1
        refine ⟨x, List.mem_cons_self x cs, ?_⟩
        rw [h1]
        exact submit_created_matches cfg st x.now x.req x.saveErr x.mailErr m c0 hstep
      | validationFailed es => rw [hstep] at h1; simp [createdOf] at h1
      | rateLimited b => rw [hstep] at h1; simp [createdOf] at h1
      | serverError m e => rw [hstep] at h1; simp [createdOf] at h1
      | okList l => rw [hstep] at h1; simp [createdOf] at h1
    · rcases ih (submit cfg st x.now x.req x.saveErr x.mailErr).1 c h2 with ⟨sc, hm, hmt⟩
      exact ⟨sc, List.mem_cons_of_mem x hm, hmt⟩

theorem createdOf_length_of_all (rs : List Response)
    (h : ∀ r ∈ rs, r.isCreated = true) : (createdOf rs).length = rs.length := by
  induction rs with
  | nil => rfl
  | cons r rest ih =>
    have hr : r.isCreated = true := h r (List.mem_cons_self r rest)
    have hrest : ∀ x ∈ rest, x.isCreated = true :=
      fun x hx => h x (List.mem_cons_of_mem r hx)
    cases r with
    | created m c =>
      have hc : createdOf (Response.created m c :: rest) = c :: createdOf rest := rfl
      rw [hc, List.length_cons, List.length_cons, ih hrest]
    | validationFailed es => exact absurd hr (by simp [Response.isCreated])
    | rateLimited b => exact absurd hr (by simp [Response.isCreated])
    | serverError m e => exact absurd hr (by simp [Response.isCreated])
    | okList l => exact absurd hr (by simp [Response.isCreated])

/-- Counting inside a live window: processing any list of calls from the
same client address, all timed inside the window that started at t1,
increments that address's counter once per call, and the i-th call of the
list is answered with the 429 limiter message exactly when its overall hit
count exceeds the limit. -/
theorem runSubmits_window (cfg : Config) (a : String) (t1 : Nat) :
    ∀ (calls : List SubmitCall) (st : SysState) (k : Nat),
      st.limiter a = some (t1, k) →
      (∀ c ∈ calls, c.req.ip = a ∧ c.now < t1 + windowMs) →
      (runSubmits cfg st calls).1.limiter a = some (t1, k + calls.length) ∧
      (∀ i, i < calls.length →
        (rateLimitMax < k + i + 1 →
          (runSubmits cfg st calls).2.getD i noResp = Response.rateLimited limiterMessage) ∧
        (k + i + 1 ≤ rateLimitMax →
          ((runSubmits cfg st calls).2.getD i noResp).isRateLimited = false)) := by
  intro calls
  induction calls with
  | nil =>
    intro st k hk _
    refine ⟨by simpa using hk, ?_⟩
    intro i hi
    exact absurd hi (by simp)
  | cons c cs ih =>
    intro st k hk hc
    obtain ⟨hip, hnow⟩ := hc c (List.mem_cons_self c cs)
    have hhit : limiterHit st.limiter c.req.ip c.now =
        (fun kk => if kk = a then some (t1, k + 1) else st.limiter kk, k + 1) := by
      rw [hip]
      exact limiterHit_live c.now hk hnow
    have hlim1 : (submit cfg st c.now c.req c.saveErr c.mailErr).1.limiter a =
        some (t1, k + 1) := by
      rw [submit_limiter, hhit]
      simp
    have hrest : ∀ x ∈ cs, x.req.ip = a ∧ x.now < t1 + windowMs :=
      fun x hx => hc x (List.mem_cons_of_mem c hx)
    obtain ⟨ihlim, ihresp⟩ :=
      ih (submit cfg st c.now c.req c.saveErr c.mailErr).1 (k + 1) hlim1 hrest
    constructor
    · rw [runSubmits_cons]
      rw [ihlim]
      have : k + 1 + cs.length = k + (c :: cs).length := by
        rw [List.length_cons]; omega
      rw [this]
    · intro i hi
      rw [runSubmits_cons]
      cases i with
      | zero =>
        rw [List.getD_cons_zero]
        constructor
        · intro h10
          have hgt : rateLimitMax < (limiterHit st.limiter c.req.ip c.now).2 := by
            rw [hhit]
            omega
          rw [submit_rateLimited_eq cfg st c.now c.req c.saveErr c.mailErr hgt]
        · intro hle10
          rw [submit_isRateLimited]
          rw [hhit]
          simp only [decide_eq_false_iff_not]
          omega
      | succ j =>
        rw [List.getD_cons_succ]
        have hj : j < cs.length := by
          rw [List.length_cons] at hi
          omega
        obtain ⟨h1, h2⟩ := ihresp j hj
        constructor
        · intro h10
          exact h1 (by omega)
        · intro hle10
          exact h2 (by omega)

/-- Counting inside a live window when every call fails validation and the
limit is not yet reached: every call is answered with a 400, the counter
still advances once per call, and the store is untouched. -/
theorem runSubmits_invalid_window (cfg : Config) (a : String) (t1 : Nat) :
    ∀ (calls : List SubmitCall) (st : SysState) (k : Nat),
      st.limiter a = some (t1, k) →
      (∀ c ∈ calls, c.req.ip = a ∧ c.now < t1 + windowMs ∧ (validate c.req).errors ≠ []) →
      k + calls.length ≤ rateLimitMax →
      (runSubmits cfg st calls).1.limiter a = some (t1, k + calls.length) ∧
      (∀ i, i < calls.length →
        ((runSubmits cfg st calls).2.getD i noResp).isValidationFailed = true) ∧
      (runSubmits cfg st calls).1.store = st.store := by
  intro calls
  induction calls with
  | nil =>
    intro st k hk _ _
    refine ⟨by simpa using hk, ?_, rfl⟩
    intro i hi
    exact absurd hi (by simp)
  | cons c cs ih =>
    intro st k hk hc hcount
    obtain ⟨hip, hnow, hinv⟩ := hc c (List.mem_cons_self c cs)
    have hhit : limiterHit st.limiter c.req.ip c.now =
        (fun kk => if kk = a then some (t1, k + 1) else st.limiter kk, k + 1) := by
      rw [hip]
      exact limiterHit_live c.now hk hnow
    have hle : (limiterHit st.limiter c.req.ip c.now).2 ≤ rateLimitMax := by
      rw [hhit]
      rw [List.length_cons] at hcount
      omega
    have hstep := submit_invalid_eq cfg st c.now c.req c.saveErr c.mailErr hle hinv
    have hlim1 : (submit cfg st c.now c.req c.saveErr c.mailErr).1.limiter a =
        some (t1, k + 1) := by
      rw [submit_limiter, hhit]
      simp
    have hrest : ∀ x ∈ cs, x.req.ip = a ∧ x.now < t1 + windowMs ∧ (validate x.req).errors ≠ [] :=
      fun x hx => hc x (List.mem_cons_of_mem c hx)
    have hcount1 : k + 1 + cs.length ≤ rateLimitMax := by
      rw [List.length_cons] at hcount
      omega
    obtain ⟨ihlim, ihresp, ihstore⟩ :=
      ih (submit cfg st c.now c.req c.saveErr c.mailErr).1 (k + 1) hlim1 hrest hcount1
    refine ⟨?_, ?_, ?_⟩
    · rw [runSubmits_cons, ihlim]
      have : k + 1 + cs.length = k + (c :: cs).length := by
        rw [List.length_cons]; omega
      rw [this]
    · intro i hi
      rw [runSubmits_cons]
      cases i with
      | zero =>
        rw [List.getD_cons_zero, hstep]
        rfl
      | succ j =>
        rw [List.getD_cons_succ]
        refine ihresp j ?_
        rw [List.length_cons] at hi
        omega
    · rw [runSubmits_cons]
      dsimp only
      rw [ihstore, hstep]

/-- Conditions that hold on a request body accepted by the validation
chain: nonempty trimmed name, valid trimmed email, nonempty trimmed message
of pre-escape length at most 1000. -/
theorem validate_ok_conditions (req : Request) (hv : (validate req).errors = []) :
    jsTrim (req.name.getD "") ≠ "" ∧
    isEmail (jsTrim (req.email.getD "")) = true ∧
    jsTrim (req.message.getD "") ≠ "" ∧
    (jsTrim (req.message.getD "")).length ≤ 1000 := by
  refine ⟨?_, ?_, ?_, ?_⟩
  · intro hn
    simp [validate, hn] at hv
  · by_cases he : isEmail (jsTrim (req.email.getD "")) = true
    · exact he
    · exfalso
      rw [Bool.not_eq_true] at he
      simp [validate, he] at hv
  · intro hm
    simp [validate, hm] at hv
  · by_contra hlong
    rw [Nat.not_le] at hlong
    simp [validate, hlong] at hv

/-- C1: for every valid submission that is not rate-limited and whose store
write succeeds, Submit answers 201 with the stored record: it carries the
assigned identifier and the timestamp, the name escaped after trimming, the
email normalized to its lowercased form, phone and topic escaped when
present and absent otherwise, and the message escaped after trimming; the
record is appended to the store. The witness instantiates the
specification example with name Ann, email ANN@Example.com and message
Hello. -/
theorem submit_valid_created
    (cfg : Config) (st : SysState) (now : Nat) (req : Request) (mailErr : Option String)
    (hallow : (limiterHit st.limiter req.ip now).2 ≤ rateLimitMax)
    (hv : (validate req).errors = []) :
    (submit cfg st now req none mailErr).2 =
      Response.created successMessage (contactOf st.nextId now (validate req)) ∧
    ((submit cfg st now req none mailErr).2).status = 201 ∧
    (submit cfg st now req none mailErr).1.store =
      st.store ++ [contactOf st.nextId now (validate req)] ∧
    (validate req).name = escape (jsTrim (req.name.getD "")) ∧
    (validate req).email = normalizeEmail (jsTrim (req.email.getD "")) ∧
    (validate req).phone = req.phone.map (fun p => escape (jsTrim p)) ∧
    (validate req).topic = req.topic.map (fun t => escape (jsTrim t)) ∧
    (validate req).message = escape (jsTrim (req.message.getD "")) ∧
    (contactOf st.nextId now (validate req)).id = st.nextId ∧
    (contactOf st.nextId now (validate req)).date = now := by
  have hs := submit_success_eq cfg st now req mailErr hallow hv
  exact ⟨by rw [hs], by rw [hs]; rfl, by rw [hs], rfl, rfl, rfl, rfl, rfl, rfl, rfl⟩

/-- Witness for C1: the specification example. The response is 201 and the
stored record has the email lowercased to ann@example.com, the message
Hello and no topic. -/
theorem submit_valid_created_witness :
    (submit cfg0 initState 5 annReq none none).2 =
      Response.created successMessage
        { id := 0, name := "Ann", email := "ann@example.com", phone := none,
          topic := none, message := "Hello", date := 5 } := by
  have h := submit_valid_created cfg0 initState 5 annReq none (by decide) (by decide)
  rw [h.1]
  decide

/-- C2 (amended): after any Submit, every stored record still has nonempty
name, email and message, carries its identifier and timestamp, and its
message is at most 6000 characters long: the 1000-character bound of the
validation chain applies to the trimmed message before escaping, and the
escape sanitizer can expand it by at most a factor of six. -/
theorem stored_invariant
    (cfg : Config) (st : SysState) (now : Nat) (req : Request)
    (saveErr mailErr : Option String)
    (hst : ∀ c ∈ st.store, ContactOK c) :
    ∀ c ∈ (submit cfg st now req saveErr mailErr).1.store, ContactOK c := by
  by_cases hl : rateLimitMax < (limiterHit st.limiter req.ip now).2
  · rw [submit_rateLimited_eq cfg st now req saveErr mailErr hl]
    exact hst
  · have hle := Nat.le_of_not_lt hl
    by_cases hv : (validate req).errors = []
    · cases saveErr with
      | some e =>
        rw [submit_saveErr_eq cfg st now req e mailErr hle hv]
        exact hst
      | none =>
        rw [submit_success_eq cfg st now req mailErr hle hv]
        intro c hc
        rcases List.mem_append.mp hc with h1 | h2
        · exact hst c h1
        · have hc2 : c = contactOf st.nextId now (validate req) := by
            simpa using h2
          subst hc2
          obtain ⟨hname, _, hmsg, hlen⟩ := validate_ok_conditions req hv
          refine ⟨escape_ne_empty hname, normalizeEmail_ne_empty _,
            escape_ne_empty hmsg, ?_⟩
          calc (escape (jsTrim (req.message.getD ""))).length
              ≤ 6 * (jsTrim (req.message.getD "")).length := escape_length_le _
            _ ≤ 6 * 1000 := Nat.mul_le_mul_left 6 hlen
    · rw [submit_invalid_eq cfg st now req saveErr mailErr hle hv]
      exact hst

/-- Witness for C2 (amended): the invariant holds on the record stored by
the example submission against the empty store. -/
theorem stored_invariant_witness :
    ContactOK
      { id := 0, name := "Ann", email := "ann@example.com", phone := none,
        topic := none, message := "Hello", date := 5 } := by
  have h := stored_invariant cfg0 initState 5 annReq none none
    (fun c hc => absurd hc (by simp [initState]))
  exact h _ (by decide)

/-- Counterexample for C2 as stated: this submission passes validation and
is stored, yet the stored (escaped) message is 1008 characters long, so a
stored message can exceed 1000 characters. -/
theorem stored_message_can_exceed_1000 :
    ((submit cfg0 initState 0 slashReq none none).2).isCreated = true ∧
    ¬ (∀ c ∈ (submit cfg0 initState 0 slashReq none none).1.store,
        c.message.length ≤ 1000) := by
  refine ⟨by decide, by decide⟩

/-- C3: when the limiter admits but at least one field fails validation,
Submit answers 400 carrying the collected error list, with one entry per
failing check, all failures collected, and neither the store, nor the
attempted mails, nor the sent mails change. -/
theorem submit_invalid_validation
    (cfg : Config) (st : SysState) (now : Nat) (req : Request)
    (saveErr mailErr : Option String)
    (hallow : (limiterHit st.limiter req.ip now).2 ≤ rateLimitMax)
    (hv : (validate req).errors ≠ []) :
    (submit cfg st now req saveErr mailErr).2 =
      Response.validationFailed (validate req).errors ∧
    ((submit cfg st now req saveErr mailErr).2).status = 400 ∧
    (submit cfg st now req saveErr mailErr).1.store = st.store ∧
    (submit cfg st now req saveErr mailErr).1.mailAttempts = st.mailAttempts ∧
    (submit cfg st now req saveErr mailErr).1.sentMail = st.sentMail ∧
    (jsTrim (req.name.getD "") = "" → nameRequiredError ∈ (validate req).errors) ∧
    (isEmail (jsTrim (req.email.getD "")) = false →
      emailInvalidError ∈ (validate req).errors) ∧
    (jsTrim (req.message.getD "") = "" →
      messageRequiredError ∈ (validate req).errors) ∧
    (1000 < (jsTrim (req.message.getD "")).length →
      messageTooLongError ∈ (validate req).errors) := by
  have hs := submit_invalid_eq cfg st now req saveErr mailErr hallow hv
  refine ⟨by rw [hs], by rw [hs]; rfl, by rw [hs], by rw [hs], by rw [hs], ?_, ?_, ?_, ?_⟩
  · intro h
    simp [validate, h]
  · intro h
    simp [validate, h]
  · intro h
    simp [validate, h]
  · intro h
    simp [validate, h]

/-- Witness for C3: a submission with blank name, malformed email and empty
message is answered 400 with one collected entry per failing field. -/
theorem submit_invalid_validation_witness :
    (submit cfg0 initState 0 badReq none none).2 =
      Response.validationFailed
        [nameRequiredError, emailInvalidError, messageRequiredError] := by
  have h := submit_invalid_validation cfg0 initState 0 badReq none none
    (by decide) (by decide)
  rw [h.1]
  decide

/-- C5: when the limiter admits, validation passes and the store write
fails, Submit answers 500 with the generic message and the underlying error
detail, and neither a store write nor any mail attempt happens. -/
theorem submit_save_failure
    (cfg : Config) (st : SysState) (now : Nat) (req : Request)
    (e : String) (mailErr : Option String)
    (hallow : (limiterHit st.limiter req.ip now).2 ≤ rateLimitMax)
    (hv : (validate req).errors = []) :
    (submit cfg st now req (some e) mailErr).2 =
      Response.serverError saveFailMessage e ∧
    ((submit cfg st now req (some e) mailErr).2).status = 500 ∧
    (submit cfg st now req (some e) mailErr).1.store = st.store ∧
    (submit cfg st now req (some e) mailErr).1.mailAttempts = st.mailAttempts ∧
    (submit cfg st now req (some e) mailErr).1.sentMail = st.sentMail := by
  have hs := submit_saveErr_eq cfg st now req e mailErr hallow hv
  exact ⟨by rw [hs], by rw [hs]; rfl, by rw [hs], by rw [hs], by rw [hs]⟩

/-- Witness for C5: a valid submission whose save fails is answered with
the generic 500 and leaves the store empty. -/
theorem submit_save_failure_witness :
    (submit cfg0 initState 0 annReq (some "db down") none).2 =
      Response.serverError saveFailMessage "db down" ∧
    (submit cfg0 initState 0 annReq (some "db down") none).1.mailAttempts = [] := by
  have h := submit_save_failure cfg0 initState 0 annReq "db down" none
    (by decide) (by decide)
  exact ⟨h.1, h.2.2.2.1⟩

/-- C6: when the store write succeeds, a failing mail send never changes
the outcome: the response equals the response of the successful-send run,
its status is 201, the record is persisted, the send error is appended to
the log, and nothing is added to the sent mails. -/
theorem mail_failure_isolated
    (cfg : Config) (st : SysState) (now : Nat) (req : Request) (e : String)
    (hallow : (limiterHit st.limiter req.ip now).2 ≤ rateLimitMax)
    (hv : (validate req).errors = []) :
    (submit cfg st now req none (some e)).2 = (submit cfg st now req none none).2 ∧
    ((submit cfg st now req none (some e)).2).status = 201 ∧
    (submit cfg st now req none (some e)).1.store =
      st.store ++ [contactOf st.nextId now (validate req)] ∧
    (submit cfg st now req none (some e)).1.log =
      st.log ++ ["Error sending confirmation email: " ++ e] ∧
    (submit cfg st now req none (some e)).1.sentMail = st.sentMail := by
  have h1 := submit_success_eq cfg st now req (some e) hallow hv
  have h2 := submit_success_eq cfg st now req none hallow hv
  exact ⟨by rw [h1, h2], by rw [h1]; rfl, by rw [h1], by rw [h1], by rw [h1]⟩

/-- Witness for C6: the example submission with a failing transport is
still answered 201 and stored; the failure is only logged. -/
theorem mail_failure_isolated_witness :
    (submit cfg0 initState 5 annReq none (some "smtp down")).2 =
      (submit cfg0 initState 5 annReq none none).2 ∧
    (submit cfg0 initState 5 annReq none (some "smtp down")).1.log =
      ["Error sending confirmation email: smtp down"] := by
  have h := mail_failure_isolated cfg0 initState 5 annReq "smtp down"
    (by decide) (by decide)
  exact ⟨h.1, h.2.2.2.1⟩

/-- C8: when the store write succeeds, exactly one confirmation mail is
attempted: it is sent from the configured account to the submitter's
normalized email with the fixed subject, and its plain-text body contains
the submitter's name, the topic or the placeholder when the topic is
absent, and the message body. -/
theorem confirmation_mail_composed
    (cfg : Config) (st : SysState) (now : Nat) (req : Request) (mailErr : Option String)
    (hallow : (limiterHit st.limiter req.ip now).2 ≤ rateLimitMax)
    (hv : (validate req).errors = []) :
    (submit cfg st now req none mailErr).1.mailAttempts =
      st.mailAttempts ++ [mkMail cfg (validate req)] ∧
    (mkMail cfg (validate req)).fromAddr = cfg.emailUser ∧
    (mkMail cfg (validate req)).toAddr = (validate req).email ∧
    (mkMail cfg (validate req)).subject = "Contact Form Submission Confirmation" ∧
    (∃ p q, (mkMail cfg (validate req)).text = p ++ ((validate req).name ++ q)) ∧
    (∃ p q, (mkMail cfg (validate req)).text =
      p ++ (topicOr (validate req).topic ++ q)) ∧
    (∃ p q, (mkMail cfg (validate req)).text = p ++ ((validate req).message ++ q)) := by
  have hs := submit_success_eq cfg st now req mailErr hallow hv
  refine ⟨by rw [hs], rfl, rfl, rfl, ?_, ?_, ?_⟩
  · refine ⟨mailGreeting,
      mailAfterName ++ (topicOr (validate req).topic ++
        (mailAfterTopic ++ ((validate req).message ++ mailClosing))), ?_⟩
    simp [mkMail, mailText, String.append_assoc]
  · refine ⟨mailGreeting ++ ((validate req).name ++ mailAfterName),
      mailAfterTopic ++ ((validate req).message ++ mailClosing), ?_⟩
    simp [mkMail, mailText, String.append_assoc]
  · refine ⟨mailGreeting ++ ((validate req).name ++ (mailAfterName ++
      (topicOr (validate req).topic ++ mailAfterTopic))), mailClosing, ?_⟩
    simp [mkMail, mailText, String.append_assoc]

/-- Witness for C8: the mail attempted for the example submission, which
has no topic, is addressed to the lowercased email, sent from the
configured account, and its body carries the name, the placeholder and the
message. -/
theorem confirmation_mail_composed_witness :
    (submit cfg0 initState 5 annReq none none).1.mailAttempts =
      [{ fromAddr := "team@example.com", toAddr := "ann@example.com",
          subject := "Contact Form Submission Confirmation",
          text := mailText "Ann" none "Hello" }] := by
  have h := confirmation_mail_composed cfg0 initState 5 annReq none
    (by decide) (by decide)
  rw [h.1]
  decide

/-- C10: on every successful Submit, the response contact, the stored
record and the confirmation mail body are all built from the sanitized
values: name, phone, topic and message are the escaped trimmed inputs, and
the mail text is composed from those same escaped values. -/
theorem sanitized_used_everywhere
    (cfg : Config) (st : SysState) (now : Nat) (req : Request) (mailErr : Option String)
    (hallow : (limiterHit st.limiter req.ip now).2 ≤ rateLimitMax)
    (hv : (validate req).errors = []) :
    (submit cfg st now req none mailErr).2 =
      Response.created successMessage (contactOf st.nextId now (validate req)) ∧
    contactOf st.nextId now (validate req) ∈ (submit cfg st now req none mailErr).1.store ∧
    (contactOf st.nextId now (validate req)).name = escape (jsTrim (req.name.getD "")) ∧
    (contactOf st.nextId now (validate req)).phone =
      req.phone.map (fun p => escape (jsTrim p)) ∧
    (contactOf st.nextId now (validate req)).topic =
      req.topic.map (fun t => escape (jsTrim t)) ∧
    (contactOf st.nextId now (validate req)).message =
      escape (jsTrim (req.message.getD "")) ∧
    (submit cfg st now req none mailErr).1.mailAttempts =
      st.mailAttempts ++ [mkMail cfg (validate req)] ∧
    (mkMail cfg (validate req)).text =
      mailText (escape (jsTrim (req.name.getD "")))
        (req.topic.map (fun t => escape (jsTrim t)))
        (escape (jsTrim (req.message.getD ""))) := by
  have hs := submit_success_eq cfg st now req mailErr hallow hv
  refine ⟨by rw [hs], ?_, rfl, rfl, rfl, rfl, by rw [hs], rfl⟩
  rw [hs]
  simp

/-- Witness for C10: the markup submission is stored and answered with
every markup-significant character expanded to its HTML entity in name,
topic and message. -/
theorem sanitized_used_everywhere_witness :
    (submit cfg0 initState 3 markupReq none none).2 =
      Response.created successMessage
        { id := 0, name := "A&amp;B", email := "a@b.co", phone := none,
          topic := some "&lt;T&gt;", message := "x&quot;y", date := 3 } := by
  have h := sanitized_used_everywhere cfg0 initState 3 markupReq none
    (by decide) (by decide)
  rw [h.1]
  decide

/-- C7: after any trace of Submit calls, the store equals the prior store
extended by exactly the contacts of the 201 responses, so no stored record
is ever mutated or deleted; every created record agrees field by field with
the sanitized form of a request of the trace; when all calls of a trace
against the empty store succeed, the store holds exactly as many records as
there were calls; and List returns the whole store (it reads without
changing state, so repeated calls return the same set). -/
theorem list_returns_created (cfg : Config) (st : SysState) (calls : List SubmitCall) :
    (runSubmits cfg st calls).1.store =
      st.store ++ createdOf (runSubmits cfg st calls).2 ∧
    (∀ c ∈ createdOf (runSubmits cfg st calls).2,
      ∃ sc, sc ∈ calls ∧ matchesValidated c sc.req = true) ∧
    (st.store = [] → (∀ r ∈ (runSubmits cfg st calls).2, r.isCreated = true) →
      (runSubmits cfg st calls).1.store.length = calls.length) ∧
    listContacts (runSubmits cfg st calls).1 none =
      Response.okList (runSubmits cfg st calls).1.store := by
  refine ⟨runSubmits_store cfg calls st, runSubmits_matches cfg calls st, ?_, rfl⟩
  intro hemp hall
  rw [runSubmits_store cfg calls st, hemp]
  simp [createdOf_length_of_all _ hall, runSubmits_length]

/-- Witness for C7: two successful submissions against the empty store
leave exactly two records, and List returns the whole store. -/
theorem list_returns_created_witness :
    (runSubmits cfg0 initState [annCall, boCall]).1.store.length = 2 ∧
    listContacts (runSubmits cfg0 initState [annCall, boCall]).1 none =
      Response.okList (runSubmits cfg0 initState [annCall, boCall]).1.store := by
  have h := list_returns_created cfg0 initState [annCall, boCall]
  exact ⟨h.2.2.1 rfl (by decide), h.2.2.2⟩

/-- C4: the limiter counts per client address over the 15-minute window
with limit 10. Eleven submissions from one address, the first opening the
window at t1 and the rest timed inside it, are answered without a 429 for
the first ten, while the eleventh receives the 429 whose body is the
plain-text limiter message; a twelfth submission from the same address
after the window has elapsed, with valid input and a successful store
write, is answered 201. -/
theorem rate_limit_window
    (cfg : Config) (st : SysState) (a : String) (t1 : Nat)
    (c0 : SubmitCall) (rest : List SubmitCall)
    (now12 : Nat) (req12 : Request) (me12 : Option String)
    (hfresh : st.limiter a = none)
    (hip0 : c0.req.ip = a) (ht0 : c0.now = t1)
    (hlen : rest.length = 10)
    (hrest : ∀ c ∈ rest, c.req.ip = a ∧ c.now < t1 + windowMs)
    (hip12 : req12.ip = a) (ht12 : t1 + windowMs ≤ now12)
    (hv12 : (validate req12).errors = []) :
    (∀ i, i < 10 →
      (((runSubmits cfg st (c0 :: rest)).2).getD i noResp).isRateLimited = false) ∧
    ((runSubmits cfg st (c0 :: rest)).2).getD 10 noResp =
      Response.rateLimited limiterMessage ∧
    (submit cfg (runSubmits cfg st (c0 :: rest)).1 now12 req12 none me12).2 =
      Response.created successMessage
        (contactOf (runSubmits cfg st (c0 :: rest)).1.nextId now12 (validate req12)) := by
  have hhit0 : limiterHit st.limiter c0.req.ip c0.now =
      (fun k => if k = a then some (t1, 1) else st.limiter k, 1) := by
    rw [hip0, ht0]
    exact limiterHit_fresh t1 hfresh
  have hlim1 : (submit cfg st c0.now c0.req c0.saveErr c0.mailErr).1.limiter a =
      some (t1, 1) := by
    rw [submit_limiter, hhit0]
    simp
  obtain ⟨hfin, hresp⟩ := runSubmits_window cfg a t1 rest
    (submit cfg st c0.now c0.req c0.saveErr c0.mailErr).1 1 hlim1 hrest
  refine ⟨?_, ?_, ?_⟩
  · intro i hi
    rw [runSubmits_cons]
    cases i with
    | zero =>
      rw [List.getD_cons_zero, submit_isRateLimited, hhit0]
      simp [rateLimitMax]
    | succ j =>
      rw [List.getD_cons_succ]
      have hj : j < rest.length := by omega
      exact (hresp j hj).2 (by simp [rateLimitMax]; omega)
  · rw [runSubmits_cons]
    rw [show (10 : Nat) = 9 + 1 from rfl, List.getD_cons_succ]
    refine (hresp 9 (by omega)).1 ?_
    simp [rateLimitMax]
  · have h12 : (runSubmits cfg st (c0 :: rest)).1.limiter req12.ip =
        some (t1, 1 + rest.length) := by
      rw [hip12, runSubmits_cons]
      exact hfin
    have hhit12 := limiterHit_expired now12 h12 (by omega)
    have hallow12 : (limiterHit (runSubmits cfg st (c0 :: rest)).1.limiter
        req12.ip now12).2 ≤ rateLimitMax := by
      rw [hhit12]
      exact show (1 : Nat) ≤ rateLimitMax by decide
    rw [submit_success_eq cfg (runSubmits cfg st (c0 :: rest)).1 now12 req12 me12
      hallow12 hv12]

/-- Witness for C4: eleven identical submissions from one address at time
zero make the eleventh response the 429 limiter message, and a twelfth
request one full window later is answered 201. -/
theorem rate_limit_window_witness :
    ((runSubmits cfg0 initState (vcall :: List.replicate 10 vcall)).2).getD 10 noResp =
      Response.rateLimited limiterMessage ∧
    (submit cfg0 (runSubmits cfg0 initState (vcall :: List.replicate 10 vcall)).1
      windowMs vreq none none).2 =
      Response.created successMessage
        (contactOf (runSubmits cfg0 initState
          (vcall :: List.replicate 10 vcall)).1.nextId windowMs (validate vreq)) := by
  have h := rate_limit_window cfg0 initState "1.1.1.1" 0 vcall (List.replicate 10 vcall)
    windowMs vreq none rfl rfl rfl (by decide) (by decide) rfl (by decide) (by decide)
  exact ⟨h.2.1, h.2.2⟩

/-- C9: the limiter middleware runs before validation, so every request
counts against its address's window whatever its outcome: ten submissions
from one address that are all answered 400 for validation failures exhaust
the window, and an eleventh request from that address inside the window is
answered with the 429 limiter message even though its input is fully valid;
nothing is ever written to the store. -/
theorem rate_limit_precedes_validation
    (cfg : Config) (st : SysState) (a : String) (t1 : Nat)
    (c0 : SubmitCall) (rest : List SubmitCall)
    (now11 : Nat) (req11 : Request) (se11 me11 : Option String)
    (hfresh : st.limiter a = none)
    (hip0 : c0.req.ip = a) (ht0 : c0.now = t1) (hinv0 : (validate c0.req).errors ≠ [])
    (hlen : rest.length = 9)
    (hrest : ∀ c ∈ rest, c.req.ip = a ∧ c.now < t1 + windowMs ∧
      (validate c.req).errors ≠ [])
    (hip11 : req11.ip = a) (ht11 : now11 < t1 + windowMs)
    (hv11 : (validate req11).errors = []) :
    (∀ i, i < 10 →
      (((runSubmits cfg st (c0 :: rest)).2).getD i noResp).isValidationFailed = true) ∧
    (submit cfg (runSubmits cfg st (c0 :: rest)).1 now11 req11 se11 me11).2 =
      Response.rateLimited limiterMessage ∧
    (submit cfg (runSubmits cfg st (c0 :: rest)).1 now11 req11 se11 me11).1.store =
      st.store := by
  have hhit0 : limiterHit st.limiter c0.req.ip c0.now =
      (fun k => if k = a then some (t1, 1) else st.limiter k, 1) := by
    rw [hip0, ht0]
    exact limiterHit_fresh t1 hfresh
  have hle0 : (limiterHit st.limiter c0.req.ip c0.now).2 ≤ rateLimitMax := by
    rw [hhit0]
    exact show (1 : Nat) ≤ rateLimitMax by decide
  have hstep0 := submit_invalid_eq cfg st c0.now c0.req c0.saveErr c0.mailErr hle0 hinv0
  have hlim1 : (submit cfg st c0.now c0.req c0.saveErr c0.mailErr).1.limiter a =
      some (t1, 1) := by
    rw [submit_limiter, hhit0]
    simp
  obtain ⟨ihlim, ihresp, ihstore⟩ := runSubmits_invalid_window cfg a t1 rest
    (submit cfg st c0.now c0.req c0.saveErr c0.mailErr).1 1 hlim1 hrest
    (by rw [hlen]; decide)
  have hfinlim : (runSubmits cfg st (c0 :: rest)).1.limiter a = some (t1, 10) := by
    rw [runSubmits_cons]
    rw [hlen] at ihlim
    exact ihlim
  refine ⟨?_, ?_, ?_⟩
  · intro i hi
    rw [runSubmits_cons]
    cases i with
    | zero =>
      rw [List.getD_cons_zero, hstep0]
      rfl
    | succ j =>
      rw [List.getD_cons_succ]
      exact ihresp j (by omega)
  · have h11 : (runSubmits cfg st (c0 :: rest)).1.limiter req11.ip = some (t1, 10) := by
      rw [hip11]
      exact hfinlim
    have hhit11 := limiterHit_live now11 h11 ht11
    have hgt : rateLimitMax <
        (limiterHit (runSubmits cfg st (c0 :: rest)).1.limiter req11.ip now11).2 := by
      rw [hhit11]
      exact show rateLimitMax < 10 + 1 by decide
    rw [submit_rateLimited_eq cfg (runSubmits cfg st (c0 :: rest)).1 now11 req11
      se11 me11 hgt]
  · have h11 : (runSubmits cfg st (c0 :: rest)).1.limiter req11.ip = some (t1, 10) := by
      rw [hip11]
      exact hfinlim
    have hhit11 := limiterHit_live now11 h11 ht11
    have hgt : rateLimitMax <
        (limiterHit (runSubmits cfg st (c0 :: rest)).1.limiter req11.ip now11).2 := by
      rw [hhit11]
      exact show rateLimitMax < 10 + 1 by decide
    rw [submit_rateLimited_eq cfg (runSubmits cfg st (c0 :: rest)).1 now11 req11
      se11 me11 hgt]
    show (runSubmits cfg st (c0 :: rest)).1.store = st.store
    rw [runSubmits_cons]
    rw [ihstore, hstep0]

/-- Witness for C9: after ten submissions with a missing name from one
address, an eleventh, fully valid submission from that address within the
window is answered with the 429 limiter message and the store stays empty. -/
theorem rate_limit_precedes_validation_witness :
    (submit cfg0 (runSubmits cfg0 initState (icall :: List.replicate 9 icall)).1
      5 vreq3 none none).2 = Response.rateLimited limiterMessage ∧
    (submit cfg0 (runSubmits cfg0 initState (icall :: List.replicate 9 icall)).1
      5 vreq3 none none).1.store = [] := by
  have h := rate_limit_precedes_validation cfg0 initState "3.3.3.3" 0 icall
    (List.replicate 9 icall) 5 vreq3 none none rfl rfl rfl (by decide) (by decide)
    (by decide) rfl (by decide) (by decide)
  exact ⟨h.2.1, h.2.2⟩

end ContactUs
